import Mathlib

/-!
Shallow embedding of the task-list core of the to-do-list application.

The embedding follows the authenticated variant in src/index.js (lines
235-793), the variant whose operations carry the (listName, userId) pair
that the specification describes.  Mongo documents become a list of task
records plus a fresh-id counter; each route handler becomes a pure
function from its request fields and the store to the new store and the
redirect target.  Line numbers in the doc comments refer to src/index.js.
-/

namespace TodoList

/-- A persisted task document (mongoose schema, lines 263-269):
id, listName, text, done, userId. -/
structure Task where
  id : Nat
  listName : String
  text : String
  done : Bool
  userId : String
  deriving DecidableEq

/-- The task collection together with the counter that supplies the fresh
ids the store generates on insert. -/
structure Store where
  tasks : List Task
  nextId : Nat
  deriving DecidableEq

/-- The protected default list name (line 259). -/
def DEFAULT_LIST : String := "Personal"

/-- Lodash capitalize, as used at lines 423 and 631: the first character is
upper-cased and every remaining character is lower-cased. -/
def capitalize (s : String) : String :=
  match s.toList with
  | [] => ""
  | c :: cs => String.mk (c.toUpper :: cs.map Char.toLower)

/-- List-name resolution of the GET handler combined with renderList: a
missing or empty (falsy) route parameter falls back to the default list
name (line 619), and the chosen name is then capitalized (line 423). -/
def normalizeListName (raw : Option String) : String :=
  match raw with
  | none => capitalize DEFAULT_LIST
  | some r => if r = "" then capitalize DEFAULT_LIST else capitalize r

/-- The save call of the add-task branch (lines 668-675): inserts a new
document carrying the raw route parameter as listName, the submitted text,
done set to false, and the session user id; the store generates a fresh
document id. -/
def saveTask (listName text userId : String) (s : Store) : Store :=
  { tasks := s.tasks ++
      [{ id := s.nextId, listName := listName, text := text, done := false, userId := userId }],
    nextId := s.nextId + 1 }

/-- deleteList (lines 691-707): if the name equals the default list name the
call returns without touching the store; otherwise every document matching
the (listName, userId) query is deleted. -/
def deleteList (listName userId : String) (s : Store) : Store :=
  if listName = DEFAULT_LIST then s
  else { s with tasks := s.tasks.filter fun t => !(t.listName == listName && t.userId == userId) }

/-- pruneList (lines 714-725): every document matching the query
(listName, userId, done true) is deleted. -/
def pruneList (listName userId : String) (s : Store) : Store :=
  { s with
    tasks := s.tasks.filter fun t => !(t.listName == listName && t.userId == userId && t.done) }

/-- Checkbox coercion of the done endpoint (line 737): the body field done
compared against the literal string "on"; an absent body field also compares
unequal and yields false. -/
def coerceDone (rawDone : Option String) : Bool := rawDone == some "on"

/-- Effect of mongoose findByIdAndUpdate with update done := d on the task
collection: the single document whose id matches is updated, every other
document is left unchanged; when no document matches, nothing changes. -/
def updateDoneById (id : Nat) (d : Bool) : List Task → List Task
  | [] => []
  | t :: ts => if t.id == id then { t with done := d } :: ts else t :: updateDoneById id d ts

/-- findByIdAndUpdate (lines 190 and 738) returns the matched document, or
none when the id is absent, together with the updated store.  An absent id
is not an error: the call resolves normally with none. -/
def findByIdAndUpdateDone (id : Nat) (d : Bool) (s : Store) : Option Task × Store :=
  (s.tasks.find? (fun t => t.id == id), { s with tasks := updateDoneById id d s.tasks })

/-- Sort key of renderList (line 432), sort by done ascending then text
ascending: false sorts before true, and within equal done the text order
decides. -/
def taskLE (a b : Task) : Bool :=
  (!a.done && b.done) || (a.done == b.done && decide (a.text ≤ b.text))

/-- taskLE as a relation, for the sorting development. -/
def taskOrder : Task → Task → Prop := fun a b => taskLE a b = true

instance : DecidableRel taskOrder :=
  fun a b => inferInstanceAs (Decidable (taskLE a b = true))

/-- renderList (lines 419-445): capitalize the requested list name, filter
the collection by exact (listName, userId) match, and sort the result by
done ascending then text ascending. -/
def renderTasks (listName userId : String) (s : Store) : List Task :=
  List.insertionSort taskOrder
    (s.tasks.filter fun t => t.listName == capitalize listName && t.userId == userId)

/-- Render-ready projection handed to the template (lines 434-441): the
capitalized list name together with the sorted tasks. -/
def getView (listName userId : String) (s : Store) : String × List Task :=
  (capitalize listName, renderTasks listName userId s)

/-- POST handler for the list route (lines 627-684), returning the new store
and the redirect target.  An unauthenticated request changes nothing and
redirects to the login page.  Note line 670: the inserted document takes the
raw route parameter, while the capitalized name (line 631) is used by the
delete branch, the prune branch and the redirect. -/
def handleListPost (auth : Bool) (userId rawListName : String) (method : Option String)
    (newItem : String) (s : Store) : Store × String :=
  if auth then
    let listName := capitalize rawListName
    if method = some "delete" then (deleteList listName userId s, "/list/" ++ DEFAULT_LIST)
    else if method = some "prune" then (pruneList listName userId s, "/list/" ++ listName)
    else (saveTask rawListName newItem userId s, "/list/" ++ listName)
  else (s, "/login")

set_option linter.unusedVariables false in
/-- POST handler for the mark-done route (lines 732-742): coerces the
checkbox value and updates the task selected by id.  The identity of the
requesting user (callerId) is only logged at line 734 and plays no part in
the update. -/
def handleMarkDone (callerId rawListName : String) (taskId : Nat) (rawDone : Option String)
    (s : Store) : Store × String :=
  ((findByIdAndUpdateDone taskId (coerceDone rawDone) s).2, "/list/" ++ rawListName)

/-- Empty store, the initial state. -/
def emptyStore : Store := { tasks := [], nextId := 0 }

/-- A task in the default list owned by alice, used as a concrete input. -/
def personalTask : Task :=
  { id := 0, listName := "Personal", text := "Buy milk", done := false, userId := "alice" }

/-- A store holding exactly personalTask. -/
def oneTaskStore : Store := { tasks := [personalTask], nextId := 1 }

/-- A store whose only task lies in a different (listName, userId) scope
than the queries exercised against it. -/
def otherScopeStore : Store :=
  { tasks := [{ id := 3, listName := "Personal", text := "x", done := true, userId := "bob" }],
    nextId := 4 }

instance : IsTotal Task taskOrder := by
  constructor
  intro a b
  simp only [taskOrder, taskLE]
  cases ha : a.done <;> cases hb : b.done <;> simp_all
  · exact le_total a.text.data b.text.data
  · exact le_total a.text.data b.text.data

instance : IsTrans Task taskOrder := by
  constructor
  intro a b c hab hbc
  simp only [taskOrder, taskLE] at *
  cases ha : a.done <;> cases hb : b.done <;> cases hc : c.done <;> simp_all
  · exact le_trans hab hbc
  · exact le_trans hab hbc

/-- When no task carries the target id, the update pass leaves the
collection unchanged. -/
theorem updateDoneById_of_not_mem (id : Nat) (d : Bool) (l : List Task)
    (h : ∀ t ∈ l, t.id ≠ id) : updateDoneById id d l = l := by
  induction l with
  | nil => rfl
  | cons t ts ih =>
    have ht : (t.id == id) = false := by
      simpa using h t (List.mem_cons_self t ts)
    simp only [updateDoneById, ht, Bool.false_eq_true, if_false]
    rw [ih fun u hu => h u (List.mem_cons_of_mem t hu)]

/-- Mapping the pointwise update over tasks that all miss the target id is
the identity. -/
theorem map_updateDone_of_not_mem (id : Nat) (d : Bool) (l : List Task)
    (h : ∀ t ∈ l, t.id ≠ id) :
    (l.map fun t => if t.id = id then { t with done := d } else t) = l := by
  induction l with
  | nil => rfl
  | cons t ts ih =>
    have ht : t.id ≠ id := h t (List.mem_cons_self t ts)
    simp only [List.map, if_neg ht]
    rw [ih fun u hu => h u (List.mem_cons_of_mem t hu)]

/-- Under distinct ids, the single-document update agrees with the pointwise
map that rewrites exactly the targeted document. -/
theorem updateDoneById_eq_map (id : Nat) (d : Bool) (l : List Task)
    (h : l.Pairwise fun a b => a.id ≠ b.id) :
    updateDoneById id d l = l.map fun t => if t.id = id then { t with done := d } else t := by
  induction l with
  | nil => rfl
  | cons t ts ih =>
    rcases List.pairwise_cons.mp h with ⟨h1, h2⟩
    by_cases ht : t.id = id
    · have hb : (t.id == id) = true := by simpa using ht
      simp only [updateDoneById, hb, if_true, List.map, if_pos ht]
      rw [map_updateDone_of_not_mem id d ts fun u hu => by
        intro hu2; exact h1 u hu (ht.trans hu2.symm)]
    · have hb : (t.id == id) = false := by simpa using ht
      simp only [updateDoneById, hb, Bool.false_eq_true, if_false, List.map, if_neg ht]
      rw [ih h2]

/-- Under distinct ids, the targeted task reappears after the update with
its done flag set to the requested value. -/
theorem mem_updateDoneById (id : Nat) (d : Bool) (l : List Task)
    (h : l.Pairwise fun a b => a.id ≠ b.id) (t : Task) (htl : t ∈ l) (hid : t.id = id) :
    { t with done := d } ∈ updateDoneById id d l := by
  rw [updateDoneById_eq_map id d l h]
  have hm := List.mem_map_of_mem (fun u => if u.id = id then { u with done := d } else u) htl
  simpa [hid] using hm

/-- Claim C1, evaluated at the failing input (listName "work", text
"Buy milk", owner "alice", empty store): the add-task branch stores the
document under the raw name "work" (line 670), while the view queries the
capitalized name "Work" (lines 423-432), so the freshly created task is in
the store but appears zero times in the view for the same raw list name and
owner — not exactly once as the claim states. -/
theorem createTask_then_listTasks_missing :
    (handleListPost true "alice" "work" none "Buy milk" emptyStore).1.tasks
        = [{ id := 0, listName := "work", text := "Buy milk", done := false, userId := "alice" }]
      ∧ renderTasks "work" "alice" (handleListPost true "alice" "work" none "Buy milk" emptyStore).1
        = [] := by
  decide

/-- Claim C2: for every owner and store, deleting the default list name is a
guarded no-op (lines 694-698) — the store is returned unchanged, so in
particular the task count of the default list never decreases, and no error
is raised (the function simply returns). -/
theorem deleteList_default_noop (userId : String) (s : Store) :
    deleteList DEFAULT_LIST userId s = s
      ∧ ((deleteList DEFAULT_LIST userId s).tasks.filter
            (fun t => t.listName == DEFAULT_LIST && t.userId == userId)).length
        = (s.tasks.filter (fun t => t.listName == DEFAULT_LIST && t.userId == userId)).length := by
  simp [deleteList]

/-- Claim C3: pruneList removes exactly the done tasks of the
(listName, userId) scope — a task survives the prune iff it was in the store
and is not a done task of that scope; done tasks of the scope are all
removed, and undone tasks, tasks of other lists and tasks of other owners
all remain (lines 714-725). -/
theorem pruneList_exact (listName userId : String) (s : Store) (t : Task) :
    t ∈ (pruneList listName userId s).tasks ↔
      t ∈ s.tasks ∧ ¬(t.listName = listName ∧ t.userId = userId ∧ t.done = true) := by
  simp [pruneList, List.mem_filter]
  tauto

/-- Claim C4, counterexample: adding with empty text succeeds and inserts a
task — there is no validation anywhere in the handler (lines 668-675) and
the schema marks no field required, so no ValidationError is possible and
"inserts no task" is refuted at this concrete input. -/
theorem createTask_empty_text_inserts :
    (handleListPost true "alice" "Work" none "" emptyStore).1.tasks
      = [{ id := 0, listName := "Work", text := "", done := false, userId := "alice" }] := by
  decide

/-- Claim C4 as amended: createTask performs no validation at all — for
every text, the empty string included, it inserts exactly one new task
carrying the given text and done set to false, with a fresh id. -/
theorem createTask_no_validation (listName text userId : String) (s : Store) :
    (handleListPost true userId listName none text s).1.tasks
        = s.tasks ++
          [{ id := s.nextId, listName := listName, text := text, done := false, userId := userId }]
      ∧ (handleListPost true userId listName none text s).1.nextId = s.nextId + 1 := by
  constructor <;> rfl

/-- Claim C5, counterexample: targeting the absent id 5 in a store whose
only task has id 0, findByIdAndUpdate resolves normally with none and the
store unchanged, and the handler completes with its usual redirect — the
code has no failure path here, refuting "fails with NotFoundError". -/
theorem setDone_missing_id_noop_eval :
    findByIdAndUpdateDone 5 true oneTaskStore = (none, oneTaskStore)
      ∧ handleMarkDone "alice" "Personal" 5 (some "on") oneTaskStore
        = (oneTaskStore, "/list/Personal") := by
  decide

/-- Claim C5 as amended: for a taskId not present in the store, setDone is a
silent no-op — it reports none and leaves the store unchanged, raising no
error; for stores with distinct ids (as Mongo guarantees for its id field)
the update rewrites exactly the targeted document, setting only its done
flag, and leaves every other document unchanged. -/
theorem setDone_amended (id : Nat) (d : Bool) (s : Store) :
    ((∀ t ∈ s.tasks, t.id ≠ id) → findByIdAndUpdateDone id d s = (none, s))
      ∧ (s.tasks.Pairwise (fun a b => a.id ≠ b.id) →
          (findByIdAndUpdateDone id d s).2.tasks
            = s.tasks.map fun t => if t.id = id then { t with done := d } else t) := by
  constructor
  · intro h
    unfold findByIdAndUpdateDone
    rw [updateDoneById_of_not_mem id d s.tasks h]
    rw [List.find?_eq_none.mpr fun t ht => by simpa using h t ht]
  · intro h
    unfold findByIdAndUpdateDone
    exact updateDoneById_eq_map id d s.tasks h

/-- Claim C5 witness: the amended theorem applied at the concrete absent
id 5 over the one-task store. -/
theorem setDone_amended_witness :
    findByIdAndUpdateDone 5 true oneTaskStore = (none, oneTaskStore) :=
  (setDone_amended 5 true oneTaskStore).1 (by decide)

/-- Claim C6: for every list name, owner and store, the rendered sequence is
sorted by done ascending then text ascending — for any task a appearing
before a task b, a done task never precedes an undone one, and within equal
done flags the text is non-decreasing; moreover an empty (listName, userId)
scope renders as the empty sequence rather than failing (lines 419-445). -/
theorem listTasks_sorted (listName userId : String) (s : Store) :
    ((renderTasks listName userId s).Pairwise fun a b =>
        (b.done = false → a.done = false) ∧ (a.done = b.done → a.text ≤ b.text))
      ∧ ((∀ t ∈ s.tasks, ¬(t.listName = capitalize listName ∧ t.userId = userId)) →
          renderTasks listName userId s = []) := by
  constructor
  · have hs := List.sorted_insertionSort taskOrder
      (s.tasks.filter fun t => t.listName == capitalize listName && t.userId == userId)
    refine List.Pairwise.imp ?_ hs
    intro a b hab
    simp only [taskOrder, taskLE] at hab
    constructor
    · intro hb
      cases ha : a.done <;> simp_all
    · intro hd
      rw [String.le_iff_toList_le]
      cases ha : a.done <;> cases hb : b.done <;> simp_all
  · intro h
    unfold renderTasks
    rw [List.filter_eq_nil_iff.mpr fun t ht => by simpa using h t ht]
    rfl

/-- Claim C6 witness: a store whose single task lies in a different scope
renders the empty sequence for the queried scope. -/
theorem listTasks_sorted_witness :
    renderTasks "Work" "alice" otherScopeStore = [] :=
  (listTasks_sorted "Work" "alice" otherScopeStore).2 (by decide)

/-- Claim C7: the checkbox coercion maps exactly the literal string "on" to
true — every other value, the absent field included, maps to false — and the
mark-done handler then sets the done flag of the targeted task to that
boolean (lines 736-738). -/
theorem toggleDone_coercion (rawDone : Option String) :
    (coerceDone rawDone = true ↔ rawDone = some "on")
      ∧ (∀ (callerId rawListName : String) (taskId : Nat) (s : Store),
          s.tasks.Pairwise (fun a b => a.id ≠ b.id) →
          ∀ t ∈ s.tasks, t.id = taskId →
            { t with done := coerceDone rawDone }
              ∈ (handleMarkDone callerId rawListName taskId rawDone s).1.tasks) := by
  constructor
  · simp [coerceDone]
  · intro callerId rawListName taskId s hp t ht hid
    exact mem_updateDoneById taskId (coerceDone rawDone) s.tasks hp t ht hid

/-- Claim C7 witness: sending "on" for the stored task with id 0 leaves that
task present with done set to true. -/
theorem toggleDone_coercion_witness :
    ({ id := 0, listName := "Personal", text := "Buy milk", done := true, userId := "alice" }
        : Task)
      ∈ (handleMarkDone "alice" "Personal" 0 (some "on") oneTaskStore).1.tasks :=
  (toggleDone_coercion (some "on")).2 "alice" "Personal" 0 oneTaskStore (by decide)
    personalTask (by decide) rfl

/-- Claim C8: normalizeListName capitalizes the first character and
lower-cases the rest, and empty or missing input yields the default list
name "Personal" (lines 423 and 619). -/
theorem normalizeListName_spec :
    normalizeListName none = DEFAULT_LIST
      ∧ normalizeListName (some "") = DEFAULT_LIST
      ∧ normalizeListName (some "wOrK") = "Work"
      ∧ ∀ (c : Char) (cs : List Char),
          normalizeListName (some (String.mk (c :: cs)))
            = String.mk (c.toUpper :: cs.map Char.toLower) := by
  refine ⟨by decide, by decide, by decide, ?_⟩
  intro c cs
  rfl

/-- Claim C9: the mark-done handler performs no ownership check — its result
is identical for any two caller identities, and even a caller different from
the owner of the targeted task gets the done flag of that task set (lines
732-742, where the request user is only logged). -/
theorem setDone_no_ownership_check (callerA callerB rawListName : String) (taskId : Nat)
    (rawDone : Option String) (s : Store) :
    handleMarkDone callerA rawListName taskId rawDone s
        = handleMarkDone callerB rawListName taskId rawDone s
      ∧ (s.tasks.Pairwise (fun a b => a.id ≠ b.id) →
          ∀ t ∈ s.tasks, t.id = taskId → t.userId ≠ callerA →
            { t with done := coerceDone rawDone }
              ∈ (handleMarkDone callerA rawListName taskId rawDone s).1.tasks) := by
  refine ⟨rfl, ?_⟩
  intro hp t ht hid hown
  exact mem_updateDoneById taskId (coerceDone rawDone) s.tasks hp t ht hid

/-- Claim C9 witness: the caller "mallory", who is not the owner "alice" of
the stored task, still toggles it. -/
theorem setDone_no_ownership_check_witness :
    ({ id := 0, listName := "Personal", text := "Buy milk", done := true, userId := "alice" }
        : Task)
      ∈ (handleMarkDone "mallory" "Personal" 0 (some "on") oneTaskStore).1.tasks :=
  (setDone_no_ownership_check "mallory" "bob" "Personal" 0 (some "on") oneTaskStore).2
    (by decide) personalTask (by decide) rfl (by decide)

/-- Claim C10: any raw list name whose capitalize-normalization equals the
default list name makes the delete request a guarded no-op — the handler
capitalizes the route parameter (line 631) before deleteList compares it to
the default list name (line 695), so the store comes back unchanged. -/
theorem delete_normalizes_before_guard (raw newItem userId : String) (s : Store)
    (h : capitalize raw = DEFAULT_LIST) :
    handleListPost true userId raw (some "delete") newItem s
      = (s, "/list/" ++ DEFAULT_LIST) := by
  simp [handleListPost, h, deleteList]

/-- Claim C10 witness: the mixed-case raw name "pErSoNaL" normalizes to
"Personal", so its delete request leaves the store unchanged. -/
theorem delete_normalizes_before_guard_witness :
    handleListPost true "alice" "pErSoNaL" (some "delete") "x" oneTaskStore
      = (oneTaskStore, "/list/" ++ DEFAULT_LIST) :=
  delete_normalizes_before_guard "pErSoNaL" "x" "alice" oneTaskStore (by decide)

end TodoList
